import Mathlib

/-!
Shallow embedding of the `react-native-advanced-network` policy layer:
the typed error taxonomy (`src/types`), the cache key function
(`src/core/NetworkRequestable.ts`), the in-memory cache and the cache
decorator (`src/decorators/CacheDecorator.ts`), the retry decorator
(`src/decorators/RetryDecorator.ts`), the fallback decorator
(`src/decorators/FallbackDecorator.ts`) and the authentication decorator
(`src/decorators/AuthenticatedDecorator.ts`).

Conventions of the embedding:
* A wrapped `NetworkRequestable` is a function from the invocation index
  (how many times this particular contract has been invoked before) and
  the request arguments to a result; decorators return, besides the
  result, the list of invocations they performed, so that invocation
  counts are part of the model.
* JavaScript values that may be `null` are `Option`s; the JS truthiness
  tests of the source (`if (!token)`, `ttl ? ... : null`,
  `error.statusCode && ...`) are translated exactly, so `0` and the
  empty string are falsy.
* JS numbers used for delays are modelled as exact rationals; times are
  natural-number milliseconds, passed explicitly where the source reads
  `Date.now()`.
* Header records and the backing `Map` of the memory cache are
  association lists with object/Map update semantics (`objSet`,
  `objGet`, `mapDel`).
-/

/-- Error kinds of `NetworkErrorType` in `src/types`. -/
inductive NetworkErrorType where
  | INVALID_URL
  | NO_DATA
  | DECODING_ERROR
  | HTTP_ERROR
  | UNAUTHORIZED
  | CUSTOM
  | TIMEOUT
  | NETWORK_FAILURE
  deriving DecidableEq

/-- The `NetworkError` class: a kind tag, a message and an optional
numeric status code. -/
structure NetworkError where
  type : NetworkErrorType
  message : String
  statusCode : Option Nat
  deriving DecidableEq

/-- The factory `NetworkError.unauthorized()`. -/
def NetworkError.unauthorized : NetworkError :=
  ⟨NetworkErrorType.UNAUTHORIZED, "Unauthorized", some 401⟩

/-- The factory `NetworkError.httpError(statusCode)`. -/
def NetworkError.httpError (statusCode : Nat) : NetworkError :=
  ⟨NetworkErrorType.HTTP_ERROR, "HTTP error: " ++ toString statusCode, some statusCode⟩

/-- The factory `NetworkError.networkFailure(message)`. -/
def NetworkError.networkFailure (message : String) : NetworkError :=
  ⟨NetworkErrorType.NETWORK_FAILURE, "Network failure: " ++ message, none⟩

/-- The factory `NetworkError.timeout()`. -/
def NetworkError.timeout : NetworkError :=
  ⟨NetworkErrorType.TIMEOUT, "Request timed out", none⟩

/-- An error thrown by a contract: either a typed `NetworkError` or a
foreign error (`error instanceof NetworkError` fails). -/
inductive ThrownError where
  | network (e : NetworkError)
  | foreign (message : String)
  deriving DecidableEq

/-- The `HTTPMethod` string enum. -/
inductive HTTPMethod where
  | GET
  | POST
  | PUT
  | DELETE
  | PATCH
  | HEAD
  | OPTIONS
  deriving DecidableEq

/-- The string value of an `HTTPMethod` member, as interpolated by a
template literal. -/
def methodToString : HTTPMethod → String
  | .GET => "GET"
  | .POST => "POST"
  | .PUT => "PUT"
  | .DELETE => "DELETE"
  | .PATCH => "PATCH"
  | .HEAD => "HEAD"
  | .OPTIONS => "OPTIONS"

/-- The arguments of `request(endpoint, method, body?, responseType?,
headers)`.  `γ` is the type of request bodies; the response-type hint is
an opaque token. -/
structure RequestArgs (γ : Type) where
  endpoint : String
  method : HTTPMethod
  body : Option γ
  responseHint : Option String
  headers : List (String × String)
  deriving DecidableEq

/-- Key lookup in a JS object / `Map` modelled as an association list. -/
def objGet {v : Type} : List (String × v) → String → Option v
  | [], _ => none
  | (k0, v0) :: rest, k => if k0 = k then some v0 else objGet rest k

/-- Key update in a JS object / `Map`: replace the binding if the key is
present, append it otherwise (`{...obj, [k]: x}`, `map.set(k, x)`). -/
def objSet {v : Type} : List (String × v) → String → v → List (String × v)
  | [], k, x => [(k, x)]
  | (k0, v0) :: rest, k, x =>
    if k0 = k then (k0, x) :: rest else (k0, v0) :: objSet rest k x

/-- JS `map.delete(k)`: remove the binding of `k`. -/
def mapDel {v : Type} (m : List (String × v)) (k : String) : List (String × v) :=
  m.filter (fun p => p.1 != k)

/-- The function `generateCacheKey` from `src/core/NetworkRequestable.ts`:
`method:endpoint:` followed by the serialization of the body, or the
empty string when the body is absent.  `stringify` abstracts
`JSON.stringify`. -/
def generateCacheKey {γ : Type} (stringify : γ → String)
    (endpoint : String) (method : HTTPMethod) (body : Option γ) : String :=
  methodToString method ++ ":" ++ endpoint ++ ":" ++
    (match body with
     | some b => stringify b
     | none => "")

/-- An entry of `MemoryCache`: `{ value, expiry }` with `expiry` an
optional absolute timestamp.  The stored value is an `Option` because a
JS value may itself be `null`. -/
structure CacheEntry (δ : Type) where
  value : Option δ
  expiry : Option Nat
  deriving DecidableEq

/-- The backing `Map` of `MemoryCache`. -/
abbrev MemoryCache (δ : Type) := List (String × CacheEntry δ)

/-- Method `MemoryCache.get`: absent key gives `null`; an entry whose expiry is
set and strictly in the past is deleted and gives `null`; otherwise the
stored value is returned.  Returns the value together with the updated
map, with `now` standing for `Date.now()`. -/
def MemoryCache.get {δ : Type} (c : MemoryCache δ) (now : Nat) (key : String) :
    Option δ × MemoryCache δ :=
  match objGet c key with
  | none => (none, c)
  | some item =>
    match item.expiry with
    | some exp => if exp < now then (none, mapDel c key) else (item.value, c)
    | none => (item.value, c)

/-- Method `MemoryCache.set`: `expiry = ttl ? Date.now() + ttl : null`, so a
missing ttl and a ttl of `0` (falsy) both store without expiry. -/
def MemoryCache.set {δ : Type} (c : MemoryCache δ) (now : Nat) (key : String)
    (value : Option δ) (ttl : Option Nat) : MemoryCache δ :=
  let expiry : Option Nat :=
    match ttl with
    | some t => if t = 0 then none else some (now + t)
    | none => none
  objSet c key ⟨value, expiry⟩

/-- Outcome of one `CacheDecorator.request` call: the result, the cache
map afterwards, and the list of invocations of the wrapped contract. -/
structure CacheRun (γ δ : Type) where
  result : Except ThrownError (Option δ)
  cache : MemoryCache δ
  calls : List (RequestArgs γ)

/-- Method `CacheDecorator.request` with the default `MemoryCache` backend:
non-cacheable methods pass through; otherwise the key is computed, the
cache is read (a hit is a non-`null` value), and on a miss a successful
wrapped result is stored with the configured ttl
(`this.cache.set(cacheKey, response, this.ttl ?? undefined)`). -/
def CacheDecorator.request {γ δ : Type} (stringify : γ → String)
    (wrapped : Nat → RequestArgs γ → Except ThrownError (Option δ))
    (cache : MemoryCache δ) (ttl : Option Nat) (cacheMethods : List HTTPMethod)
    (now : Nat) (args : RequestArgs γ) : CacheRun γ δ :=
  if args.method ∈ cacheMethods then
    let cacheKey := generateCacheKey stringify args.endpoint args.method args.body
    match MemoryCache.get cache now cacheKey with
    | (some cachedResponse, c1) => ⟨.ok (some cachedResponse), c1, []⟩
    | (none, c1) =>
      match wrapped 0 args with
      | .error err => ⟨.error err, c1, [args]⟩
      | .ok response => ⟨.ok response, MemoryCache.set c1 now cacheKey response ttl, [args]⟩
  else ⟨wrapped 0 args, cache, [args]⟩

/-- The `RetryOptions` interface. -/
structure RetryOptions where
  maxAttempts : Nat
  initialDelay : ℚ
  maxDelay : ℚ
  backoffFactor : ℚ
  retryableErrors : List NetworkErrorType

/-- The constant `DEFAULT_RETRY_OPTIONS`. -/
def DEFAULT_RETRY_OPTIONS : RetryOptions :=
  ⟨3, 300, 3000, 2, [.NETWORK_FAILURE, .TIMEOUT, .HTTP_ERROR]⟩

/-- The guard `error.type === HTTP_ERROR && error.statusCode &&
error.statusCode < 500` shared by the retry and fallback decorators.
JS truthiness makes a status code of `0` (and an absent one) fail the
middle conjunct. -/
def isClientHttpError (e : NetworkError) : Bool :=
  decide (e.type = NetworkErrorType.HTTP_ERROR) &&
    (match e.statusCode with
     | some s => decide (s ≠ 0) && decide (s < 500)
     | none => false)

/-- Outcome of one `RetryDecorator.request` call: the result, the number
of invocations of the wrapped contract, and the list of waits performed
(in order). -/
structure RetryRun (α : Type) where
  result : Except ThrownError α
  calls : Nat
  waits : List ℚ

/-- The `while (attempt < maxAttempts)` loop of `RetryDecorator.request`,
recursing on `remaining = maxAttempts - attempt`.  Each iteration invokes
the wrapped contract; a foreign error, a non-retryable kind, a client
HTTP error or exhaustion (`attempt + 1 >= maxAttempts`) rethrows;
otherwise the loop waits `waitTime`, updates
`waitTime = min(waitTime * backoffFactor, maxDelay)` and retries.  When
the loop is never entered the final `throw lastError || CUSTOM` line
runs. -/
def retryAux {α : Type} (wrapped : Nat → Except ThrownError α) (opts : RetryOptions)
    (lastError : Option NetworkError) (waitTime : ℚ) (waits : List ℚ)
    (calls attempt : Nat) : Nat → RetryRun α
  | 0 =>
    ⟨.error (.network (lastError.getD
        ⟨NetworkErrorType.CUSTOM, "Unknown error during retry", none⟩)), calls, waits⟩
  | remaining + 1 =>
    match wrapped calls with
    | .ok v => ⟨.ok v, calls + 1, waits⟩
    | .error (.foreign m) => ⟨.error (.foreign m), calls + 1, waits⟩
    | .error (.network e) =>
      if e.type ∉ opts.retryableErrors then ⟨.error (.network e), calls + 1, waits⟩
      else if isClientHttpError e then ⟨.error (.network e), calls + 1, waits⟩
      else if opts.maxAttempts ≤ attempt + 1 then ⟨.error (.network e), calls + 1, waits⟩
      else retryAux wrapped opts (some e)
             (min (waitTime * opts.backoffFactor) opts.maxDelay)
             (waits ++ [waitTime]) (calls + 1) (attempt + 1) remaining

/-- Method `RetryDecorator.request`: run the loop from attempt `0` with
`waitTime = initialDelay`. -/
def RetryDecorator.request {α : Type} (wrapped : Nat → Except ThrownError α)
    (opts : RetryOptions) : RetryRun α :=
  retryAux wrapped opts none opts.initialDelay [] 0 0 opts.maxAttempts

/-- The `FallbackOptions` interface. -/
structure FallbackOptions where
  fallbackErrors : List NetworkErrorType

/-- The constant `DEFAULT_FALLBACK_OPTIONS`. -/
def DEFAULT_FALLBACK_OPTIONS : FallbackOptions :=
  ⟨[.NETWORK_FAILURE, .TIMEOUT, .HTTP_ERROR]⟩

/-- Outcome of one `FallbackDecorator.request` call: the result and the
lists of invocations of the primary and the secondary contract. -/
structure FallbackRun (γ α : Type) where
  result : Except ThrownError α
  primaryCalls : List (RequestArgs γ)
  secondaryCalls : List (RequestArgs γ)

/-- Method `FallbackDecorator.request`: try the primary; rethrow foreign
errors, kinds outside `fallbackErrors` and client HTTP errors; otherwise
invoke the secondary with the identical arguments and return its
outcome. -/
def FallbackDecorator.request {γ α : Type}
    (primary secondary : Nat → RequestArgs γ → Except ThrownError α)
    (opts : FallbackOptions) (args : RequestArgs γ) : FallbackRun γ α :=
  match primary 0 args with
  | .ok v => ⟨.ok v, [args], []⟩
  | .error (.foreign m) => ⟨.error (.foreign m), [args], []⟩
  | .error (.network e) =>
    if e.type ∉ opts.fallbackErrors then ⟨.error (.network e), [args], []⟩
    else if isClientHttpError e then ⟨.error (.network e), [args], []⟩
    else ⟨secondary 0 args, [args], [args]⟩

/-- Outcome of one `AuthenticatedDecorator.request` call: the result,
whether the token provider was invoked, and the arguments the wrapped
contract was invoked with (if it was). -/
structure AuthRun (γ α : Type) where
  result : Except ThrownError α
  providerInvoked : Bool
  wrappedArgs : Option (RequestArgs γ)

/-- JS `s.startsWith(p)`: the characters of `p` are a prefix of the
characters of `s`. -/
def strStartsWith (s p : String) : Bool :=
  p.data.isPrefixOf s.data

/-- The header value: `token.startsWith('Bearer ') ? token :
`Bearer ${token}``. -/
def bearerHeaderValue (token : String) : String :=
  if strStartsWith token "Bearer " then token else "Bearer " ++ token

/-- Method `AuthenticatedDecorator.request`: if `needsAuth(endpoint)`, read the
token (`tokenProvider` is its returned value, `none` for
null/undefined); a falsy token (`!token`) throws
`NetworkError.unauthorized()`; otherwise the bearer header is merged
over the caller's headers and the wrapped contract is invoked; without
auth the call passes through untouched. -/
def AuthenticatedDecorator.request {γ α : Type}
    (wrapped : RequestArgs γ → Except ThrownError α)
    (tokenProvider : Option String) (needsAuth : String → Bool)
    (headerName : String) (args : RequestArgs γ) : AuthRun γ α :=
  if needsAuth args.endpoint then
    match tokenProvider with
    | none => ⟨.error (.network NetworkError.unauthorized), true, none⟩
    | some token =>
      if token = "" then ⟨.error (.network NetworkError.unauthorized), true, none⟩
      else
        let authArgs :=
          { args with headers := objSet args.headers headerName (bearerHeaderValue token) }
        ⟨wrapped authArgs, true, some authArgs⟩
  else ⟨wrapped args, false, some args⟩

/-- The sequence of backoff waits: `waitSeq d0 f M k` is the wait
performed before the `(k+1)`-th re-invocation, following the iterative
update of the retry loop. -/
def waitSeq (d0 f M : ℚ) : Nat → ℚ
  | 0 => d0
  | k + 1 => min (waitSeq d0 f M k * f) M

/-! ## Helper lemmas -/

theorem strAppendCancelLeft (p s t : String) (h : p ++ s = p ++ t) : s = t := by
  have hd := congrArg String.data h
  simp [String.data_append] at hd
  exact String.ext hd

theorem objGet_objSet_self {v : Type} (m : List (String × v)) (k : String) (x : v) :
    objGet (objSet m k x) k = some x := by
  induction m with
  | nil => simp [objSet, objGet]
  | cons p rest ih =>
    obtain ⟨k0, v0⟩ := p
    by_cases h : k0 = k
    · simp [objSet, objGet, h]
    · simp [objSet, objGet, h, ih]

theorem objGet_objSet_other {v : Type} (m : List (String × v)) (k k2 : String) (x : v)
    (h : k2 ≠ k) : objGet (objSet m k x) k2 = objGet m k2 := by
  induction m with
  | nil => simp [objSet, objGet, Ne.symm h]
  | cons p rest ih =>
    obtain ⟨k0, v0⟩ := p
    by_cases h0 : k0 = k
    · subst h0
      simp [objSet, objGet, Ne.symm h]
    · simp [objSet, objGet, h0, ih]

theorem objGet_mapDel_self {v : Type} (m : List (String × v)) (k : String) :
    objGet (mapDel m k) k = none := by
  induction m with
  | nil => simp [mapDel, objGet]
  | cons p rest ih =>
    obtain ⟨k0, v0⟩ := p
    by_cases h : k0 = k
    · simpa [mapDel, objGet, h] using ih
    · simpa [mapDel, objGet, h] using ih

/-- A `MemoryCache.get` that returns a value leaves the map unchanged. -/
theorem memGet_hit_cache_eq {δ : Type} (c : MemoryCache δ) (now : Nat) (key : String)
    (v : δ) (h : (MemoryCache.get c now key).1 = some v) :
    (MemoryCache.get c now key).2 = c := by
  unfold MemoryCache.get at h ⊢
  cases hob : objGet c key with
  | none => simp [hob]
  | some item =>
    cases hexp : item.expiry with
    | none => simp [hob, hexp]
    | some exp =>
      by_cases hlt : exp < now
      · simp [hob, hexp, hlt] at h
      · simp [hob, hexp, hlt]

/-- A key whose entry is absent, or whose stored value is `null`, reads
as `null` (the JS conflation of "no entry" and "entry holding null"). -/
theorem memGet_null_entry {δ : Type} (c : MemoryCache δ) (now : Nat) (key : String)
    (h : objGet c key = none ∨ ∃ exp, objGet c key = some ⟨none, exp⟩) :
    (MemoryCache.get c now key).1 = none := by
  unfold MemoryCache.get
  rcases h with h | ⟨exp, h⟩
  · simp [h]
  · cases exp with
    | none => simp [h]
    | some e =>
      by_cases hlt : e < now
      · simp [h, hlt]
      · simp [h, hlt]

/-! ## C6: the cache key function -/

/-- C6: `generateCacheKey` is deterministic; it is the concatenation of
the method string, the endpoint and the serialization of the body
(separated by colons), with the empty string in the body position for an
absent body; and for a fixed endpoint and method, bodies with distinct
serializations give distinct keys. -/
theorem generateCacheKey_spec {γ : Type} (stringify : γ → String) :
    (∀ (e1 e2 : String) (m1 m2 : HTTPMethod) (b1 b2 : Option γ),
        e1 = e2 → m1 = m2 → b1 = b2 →
        generateCacheKey stringify e1 m1 b1 = generateCacheKey stringify e2 m2 b2)
    ∧ (∀ (e : String) (m : HTTPMethod) (b : γ),
        generateCacheKey stringify e m (some b) =
          methodToString m ++ ":" ++ e ++ ":" ++ stringify b)
    ∧ (∀ (e : String) (m : HTTPMethod),
        generateCacheKey stringify e m none = methodToString m ++ ":" ++ e ++ ":" ++ "")
    ∧ (∀ (e : String) (m : HTTPMethod) (b1 b2 : γ),
        stringify b1 ≠ stringify b2 →
        generateCacheKey stringify e m (some b1) ≠ generateCacheKey stringify e m (some b2)) := by
  refine ⟨?_, ?_, ?_, ?_⟩
  · rintro e1 e2 m1 m2 b1 b2 rfl rfl rfl; rfl
  · intro e m b; rfl
  · intro e m; rfl
  · intro e m b1 b2 hne heq
    exact hne (strAppendCancelLeft (methodToString m ++ ":" ++ e ++ ":") _ _ heq)

/-- Witness for C6 at concrete inputs. -/
theorem generateCacheKey_spec_inst :
    generateCacheKey (fun s : String => s) "/users" HTTPMethod.GET (some "a") ≠
      generateCacheKey (fun s : String => s) "/users" HTTPMethod.GET (some "b") :=
  (generateCacheKey_spec (fun s : String => s)).2.2.2 "/users" HTTPMethod.GET "a" "b"
    (by decide)

/-! ## C7: lazy read-time expiry of `MemoryCache` -/

/-- C7: an entry stored at time `T` with positive ttl `t` is returned by
a `get` at any time up to and including `T + t` (map unchanged), while a
`get` strictly after `T + t` returns `null` and deletes the entry; an
entry stored without a ttl is never expired by `get`. -/
theorem memoryCache_lazy_expiry {δ : Type} (c : MemoryCache δ) (T t now : Nat)
    (key : String) (v : Option δ) :
    (0 < t → now ≤ T + t →
      MemoryCache.get (MemoryCache.set c T key v (some t)) now key =
        (v, MemoryCache.set c T key v (some t)))
    ∧ (0 < t → T + t < now →
      (MemoryCache.get (MemoryCache.set c T key v (some t)) now key).1 = none ∧
      objGet (MemoryCache.get (MemoryCache.set c T key v (some t)) now key).2 key = none)
    ∧ MemoryCache.get (MemoryCache.set c T key v none) now key =
        (v, MemoryCache.set c T key v none) := by
  refine ⟨?_, ?_, ?_⟩
  · intro ht hnow
    have ht0 : ¬ t = 0 := by omega
    have hget : objGet (MemoryCache.set c T key v (some t)) key = some ⟨v, some (T + t)⟩ := by
      simp [MemoryCache.set, ht0, objGet_objSet_self]
    simp [MemoryCache.get, hget, Nat.not_lt.mpr hnow]
  · intro ht hnow
    have ht0 : ¬ t = 0 := by omega
    have hget : objGet (MemoryCache.set c T key v (some t)) key = some ⟨v, some (T + t)⟩ := by
      simp [MemoryCache.set, ht0, objGet_objSet_self]
    simp [MemoryCache.get, hget, hnow, objGet_mapDel_self]
  · have hget : objGet (MemoryCache.set c T key v none) key = some ⟨v, none⟩ := by
      simp [MemoryCache.set, objGet_objSet_self]
    simp [MemoryCache.get, hget]

/-- Witness for C7: ttl 5000, stored at 0; hit at 4000, miss at 6001
with the entry deleted. -/
theorem memoryCache_lazy_expiry_inst :
    MemoryCache.get (MemoryCache.set ([] : MemoryCache Nat) 0 "k" (some 42) (some 5000)) 4000 "k" =
      (some 42, MemoryCache.set ([] : MemoryCache Nat) 0 "k" (some 42) (some 5000)) ∧
    (MemoryCache.get (MemoryCache.set ([] : MemoryCache Nat) 0 "k" (some 42) (some 5000)) 6001 "k").1 =
      none := by
  have h1 := (memoryCache_lazy_expiry ([] : MemoryCache Nat) 0 5000 4000 "k" (some 42)).1
    (by decide) (by decide)
  have h2 := ((memoryCache_lazy_expiry ([] : MemoryCache Nat) 0 5000 6001 "k" (some 42)).2.1
    (by decide) (by decide)).1
  exact ⟨h1, h2⟩

/-! ## C9: a ttl of zero stores with no expiry -/

/-- C9: storing with a ttl of exactly `0` behaves identically to storing
with no ttl: the stored entry has no expiry timestamp and every later
`get` returns the value; storing through the cache decorator with a
configured ttl of `0` likewise records an entry without expiry. -/
theorem memoryCache_zero_ttl_never_expires {γ δ : Type} (c : MemoryCache δ)
    (T now now2 : Nat) (key : String) (v : Option δ) (stringify : γ → String)
    (wrapped : Nat → RequestArgs γ → Except ThrownError (Option δ))
    (cache : MemoryCache δ) (cacheMethods : List HTTPMethod) (args : RequestArgs γ)
    (val : Option δ) :
    MemoryCache.set c T key v (some 0) = MemoryCache.set c T key v none ∧
    MemoryCache.get (MemoryCache.set c T key v (some 0)) now2 key =
      (v, MemoryCache.set c T key v (some 0)) ∧
    (args.method ∈ cacheMethods →
      (MemoryCache.get cache now
        (generateCacheKey stringify args.endpoint args.method args.body)).1 = none →
      wrapped 0 args = .ok val →
      objGet (CacheDecorator.request stringify wrapped cache (some 0) cacheMethods now args).cache
          (generateCacheKey stringify args.endpoint args.method args.body) =
        some ⟨val, none⟩) := by
  refine ⟨rfl, ?_, ?_⟩
  · have hget : objGet (MemoryCache.set c T key v (some 0)) key = some ⟨v, none⟩ := by
      simp [MemoryCache.set, objGet_objSet_self]
    simp [MemoryCache.get, hget]
  · intro hmem hmiss hw
    rcases hg : MemoryCache.get cache now
        (generateCacheKey stringify args.endpoint args.method args.body) with ⟨v1, c1⟩
    rw [hg] at hmiss
    simp only at hmiss
    subst hmiss
    simp only [CacheDecorator.request, if_pos hmem, hg, hw]
    simp [MemoryCache.set, objGet_objSet_self]

/-- Witness for C9 at concrete inputs. -/
theorem memoryCache_zero_ttl_never_expires_inst :
    MemoryCache.get (MemoryCache.set ([] : MemoryCache Nat) 0 "k" (some 7) (some 0)) 999999 "k" =
      (some 7, MemoryCache.set ([] : MemoryCache Nat) 0 "k" (some 7) (some 0)) ∧
    objGet (CacheDecorator.request (fun s : String => s)
        (fun _ _ => .ok (some 7)) ([] : MemoryCache Nat) (some 0) [HTTPMethod.GET] 0
        ⟨"/a", .GET, none, none, []⟩).cache "GET:/a:" = some ⟨some 7, none⟩ := by
  have h := memoryCache_zero_ttl_never_expires ([] : MemoryCache Nat) 0 0 999999 "k" (some 7)
    (fun s : String => s) (fun _ _ => .ok (some 7)) ([] : MemoryCache Nat) [HTTPMethod.GET]
    ⟨"/a", .GET, none, none, []⟩ (some 7)
  exact ⟨h.2.1, h.2.2 (by decide) (by decide) rfl⟩

/-! ## C3: the cache decorator's request algorithm -/

/-- Core of the cache-decorator miss path on a `null` result (shared by
the C10 development): a key whose entry is absent or holds `null` reads
as a miss, so the wrapped contract is invoked, its `null` result is
returned and stored, and the stored entry again holds `null`. -/
theorem cacheMiss_on_null {γ δ : Type} (stringify : γ → String)
    (wrapped : Nat → RequestArgs γ → Except ThrownError (Option δ))
    (cache : MemoryCache δ) (ttl : Option Nat) (cacheMethods : List HTTPMethod)
    (now : Nat) (args : RequestArgs γ)
    (hmem : args.method ∈ cacheMethods)
    (hw : wrapped 0 args = .ok none)
    (hnull : objGet cache (generateCacheKey stringify args.endpoint args.method args.body) = none ∨
      ∃ exp, objGet cache (generateCacheKey stringify args.endpoint args.method args.body) =
        some ⟨none, exp⟩) :
    (CacheDecorator.request stringify wrapped cache ttl cacheMethods now args).calls = [args] ∧
    (CacheDecorator.request stringify wrapped cache ttl cacheMethods now args).result = .ok none ∧
    ∃ exp, objGet (CacheDecorator.request stringify wrapped cache ttl cacheMethods now args).cache
        (generateCacheKey stringify args.endpoint args.method args.body) =
      some ⟨(none : Option δ), exp⟩ := by
  have hmiss := memGet_null_entry cache now
    (generateCacheKey stringify args.endpoint args.method args.body) hnull
  rcases hg : MemoryCache.get cache now
      (generateCacheKey stringify args.endpoint args.method args.body) with ⟨v1, c1⟩
  rw [hg] at hmiss
  simp only at hmiss
  subst hmiss
  simp only [CacheDecorator.request, if_pos hmem, hg, hw]
  refine ⟨by trivial, by trivial, ⟨(match ttl with
    | some t => if t = 0 then none else some (now + t)
    | none => none), ?_⟩⟩
  simp [MemoryCache.set, objGet_objSet_self]

/-- C3 (amended): `CacheDecorator.request` delegates untouched for
non-cacheable methods; on a hit it returns the cached value without
invoking the wrapped contract; on a miss it invokes the wrapped contract
exactly once, stores a successful result under the key with the
configured ttl (no expiry when the ttl is `null`), and propagates an
error unchanged with no store — after an error the cache is exactly what
the initial read left (the read may have lazily deleted an expired
entry). -/
theorem cacheDecorator_request_algorithm {γ δ : Type} (stringify : γ → String)
    (wrapped : Nat → RequestArgs γ → Except ThrownError (Option δ))
    (cache : MemoryCache δ) (ttl : Option Nat) (cacheMethods : List HTTPMethod)
    (now : Nat) (args : RequestArgs γ) :
    (args.method ∉ cacheMethods →
      (CacheDecorator.request stringify wrapped cache ttl cacheMethods now args).result =
        wrapped 0 args ∧
      (CacheDecorator.request stringify wrapped cache ttl cacheMethods now args).cache = cache ∧
      (CacheDecorator.request stringify wrapped cache ttl cacheMethods now args).calls = [args])
    ∧ (∀ v, args.method ∈ cacheMethods →
      (MemoryCache.get cache now
        (generateCacheKey stringify args.endpoint args.method args.body)).1 = some v →
      (CacheDecorator.request stringify wrapped cache ttl cacheMethods now args).result =
        .ok (some v) ∧
      (CacheDecorator.request stringify wrapped cache ttl cacheMethods now args).calls = [] ∧
      (CacheDecorator.request stringify wrapped cache ttl cacheMethods now args).cache = cache)
    ∧ (∀ err, args.method ∈ cacheMethods →
      (MemoryCache.get cache now
        (generateCacheKey stringify args.endpoint args.method args.body)).1 = none →
      wrapped 0 args = .error err →
      (CacheDecorator.request stringify wrapped cache ttl cacheMethods now args).result =
        .error err ∧
      (CacheDecorator.request stringify wrapped cache ttl cacheMethods now args).calls = [args] ∧
      (CacheDecorator.request stringify wrapped cache ttl cacheMethods now args).cache =
        (MemoryCache.get cache now
          (generateCacheKey stringify args.endpoint args.method args.body)).2)
    ∧ (∀ v, args.method ∈ cacheMethods →
      (MemoryCache.get cache now
        (generateCacheKey stringify args.endpoint args.method args.body)).1 = none →
      wrapped 0 args = .ok v →
      (CacheDecorator.request stringify wrapped cache ttl cacheMethods now args).result = .ok v ∧
      (CacheDecorator.request stringify wrapped cache ttl cacheMethods now args).calls = [args] ∧
      (CacheDecorator.request stringify wrapped cache ttl cacheMethods now args).cache =
        MemoryCache.set
          (MemoryCache.get cache now
            (generateCacheKey stringify args.endpoint args.method args.body)).2
          now (generateCacheKey stringify args.endpoint args.method args.body) v ttl ∧
      objGet (CacheDecorator.request stringify wrapped cache ttl cacheMethods now args).cache
          (generateCacheKey stringify args.endpoint args.method args.body) =
        some ⟨v, match ttl with
                 | some t => if t = 0 then none else some (now + t)
                 | none => none⟩) := by
  refine ⟨?_, ?_, ?_, ?_⟩
  · intro hmem
    simp [CacheDecorator.request, hmem]
  · intro v hmem hhit
    rcases hg : MemoryCache.get cache now
        (generateCacheKey stringify args.endpoint args.method args.body) with ⟨v1, c1⟩
    have hc1 : c1 = cache := by
      have := memGet_hit_cache_eq cache now
        (generateCacheKey stringify args.endpoint args.method args.body) v
        (by rw [hg]; rw [hg] at hhit; exact hhit)
      rw [hg] at this
      exact this
    rw [hg] at hhit
    simp only at hhit
    subst hhit
    subst hc1
    simp only [CacheDecorator.request, if_pos hmem, hg]
    exact ⟨by trivial, by trivial, by trivial⟩
  · intro err hmem hmiss hw
    rcases hg : MemoryCache.get cache now
        (generateCacheKey stringify args.endpoint args.method args.body) with ⟨v1, c1⟩
    rw [hg] at hmiss
    simp only at hmiss
    subst hmiss
    simp only [CacheDecorator.request, if_pos hmem, hg, hw]
    exact ⟨by trivial, by trivial, by trivial⟩
  · intro v hmem hmiss hw
    rcases hg : MemoryCache.get cache now
        (generateCacheKey stringify args.endpoint args.method args.body) with ⟨v1, c1⟩
    rw [hg] at hmiss
    simp only at hmiss
    subst hmiss
    simp only [CacheDecorator.request, if_pos hmem, hg, hw]
    refine ⟨by trivial, by trivial, by trivial, ?_⟩
    simp [MemoryCache.set, objGet_objSet_self]

/-- Witness for C3 at concrete inputs: a hit returns the cached value
with no wrapped invocation, and a miss followed by success stores with
the configured ttl. -/
theorem cacheDecorator_request_algorithm_inst :
    (CacheDecorator.request (fun s : String => s) (fun _ _ => .error (.foreign "nope"))
        [("GET:/a:", (⟨some 5, none⟩ : CacheEntry Nat))] none [HTTPMethod.GET] 0
        ⟨"/a", .GET, none, none, []⟩).result = .ok (some 5) ∧
    (CacheDecorator.request (fun s : String => s) (fun _ _ => .error (.foreign "nope"))
        [("GET:/a:", (⟨some 5, none⟩ : CacheEntry Nat))] none [HTTPMethod.GET] 0
        ⟨"/a", .GET, none, none, []⟩).calls = [] ∧
    objGet (CacheDecorator.request (fun s : String => s)
        (fun _ _ => .ok (some 9)) ([] : MemoryCache Nat) (some 5000) [HTTPMethod.GET] 0
        ⟨"/a", .GET, none, none, []⟩).cache "GET:/a:" = some ⟨some 9, some 5000⟩ := by
  have h1 := (cacheDecorator_request_algorithm (fun s : String => s)
    (fun _ _ => .error (.foreign "nope"))
    [("GET:/a:", (⟨some 5, none⟩ : CacheEntry Nat))] none [HTTPMethod.GET] 0
    ⟨"/a", .GET, none, none, []⟩).2.1 5 (by decide) (by decide)
  have h2 := (cacheDecorator_request_algorithm (fun s : String => s)
    (fun _ _ => .ok (some 9)) ([] : MemoryCache Nat) (some 5000) [HTTPMethod.GET] 0
    ⟨"/a", .GET, none, none, []⟩).2.2.2 (some 9) (by decide) (by decide) rfl
  exact ⟨h1.1, h1.2.1, h2.2.2.2⟩

/-- C3 counterexample: the claim's parenthetical "the cache state is
unchanged on error" fails — with an expired entry under the key, the
read deletes it lazily, so after a failing wrapped call the cache
differs from its initial state. -/
theorem cache_error_path_state_changed_cx :
    (CacheDecorator.request (fun s : String => s) (fun _ _ => .error (.foreign "boom"))
        [("GET:/a:", (⟨some 1, some 10⟩ : CacheEntry Nat))] none [HTTPMethod.GET] 11
        ⟨"/a", .GET, none, none, []⟩).result = .error (.foreign "boom") ∧
    (CacheDecorator.request (fun s : String => s) (fun _ _ => .error (.foreign "boom"))
        [("GET:/a:", (⟨some 1, some 10⟩ : CacheEntry Nat))] none [HTTPMethod.GET] 11
        ⟨"/a", .GET, none, none, []⟩).cache ≠
      [("GET:/a:", (⟨some 1, some 10⟩ : CacheEntry Nat))] := by
  exact ⟨rfl, by decide⟩

/-! ## C10: a cached `null` is never served -/

/-- C10: if the wrapped contract resolves with `null` for a cacheable
request, the `null` is stored, but a request finding the key absent or
holding `null` is treated as a miss: the wrapped contract is invoked
again and its `null` result re-stored — so the stored entry again
satisfies the same miss condition, and every subsequent request with
this key keeps invoking the wrapped contract. -/
theorem cacheDecorator_null_not_cached {γ δ : Type} (stringify : γ → String)
    (wrapped wrapped2 : Nat → RequestArgs γ → Except ThrownError (Option δ))
    (cache : MemoryCache δ) (ttl ttl2 : Option Nat) (cacheMethods : List HTTPMethod)
    (now now2 : Nat) (args : RequestArgs γ)
    (hmem : args.method ∈ cacheMethods)
    (hw : wrapped 0 args = .ok none)
    (hw2 : wrapped2 0 args = .ok none)
    (hnull : objGet cache (generateCacheKey stringify args.endpoint args.method args.body) = none ∨
      ∃ exp, objGet cache (generateCacheKey stringify args.endpoint args.method args.body) =
        some ⟨none, exp⟩) :
    (CacheDecorator.request stringify wrapped cache ttl cacheMethods now args).calls = [args] ∧
    (CacheDecorator.request stringify wrapped cache ttl cacheMethods now args).result = .ok none ∧
    (CacheDecorator.request stringify wrapped2
        (CacheDecorator.request stringify wrapped cache ttl cacheMethods now args).cache
        ttl2 cacheMethods now2 args).calls = [args] ∧
    (CacheDecorator.request stringify wrapped2
        (CacheDecorator.request stringify wrapped cache ttl cacheMethods now args).cache
        ttl2 cacheMethods now2 args).result = .ok none ∧
    ∃ exp, objGet (CacheDecorator.request stringify wrapped2
        (CacheDecorator.request stringify wrapped cache ttl cacheMethods now args).cache
        ttl2 cacheMethods now2 args).cache
        (generateCacheKey stringify args.endpoint args.method args.body) =
      some ⟨(none : Option δ), exp⟩ := by
  obtain ⟨hc1, hr1, hexp1⟩ :=
    cacheMiss_on_null stringify wrapped cache ttl cacheMethods now args hmem hw hnull
  obtain ⟨hc2, hr2, hexp2⟩ :=
    cacheMiss_on_null stringify wrapped2
      (CacheDecorator.request stringify wrapped cache ttl cacheMethods now args).cache
      ttl2 cacheMethods now2 args hmem hw2 (Or.inr hexp1)
  exact ⟨hc1, hr1, hc2, hr2, hexp2⟩

/-- Witness for C10 at concrete inputs: wrapped resolves `null`; both
the first and the second request invoke it. -/
theorem cacheDecorator_null_not_cached_inst :
    (CacheDecorator.request (fun s : String => s)
        (fun _ _ => .ok (none : Option Nat)) [] none [HTTPMethod.GET] 0
        ⟨"/a", .GET, none, none, []⟩).calls = [⟨"/a", .GET, none, none, []⟩] ∧
    (CacheDecorator.request (fun s : String => s) (fun _ _ => .ok (none : Option Nat))
        (CacheDecorator.request (fun s : String => s)
          (fun _ _ => .ok (none : Option Nat)) [] none [HTTPMethod.GET] 0
          ⟨"/a", .GET, none, none, []⟩).cache
        none [HTTPMethod.GET] 5 ⟨"/a", .GET, none, none, []⟩).calls =
      [⟨"/a", .GET, none, none, []⟩] := by
  have h := cacheDecorator_null_not_cached (fun s : String => s)
    (fun _ _ => .ok (none : Option Nat)) (fun _ _ => .ok (none : Option Nat))
    [] none none [HTTPMethod.GET] 0 5 ⟨"/a", .GET, none, none, []⟩
    (by decide) rfl rfl (Or.inl (by decide))
  exact ⟨h.1, h.2.2.1⟩

/-! ## C1: retry exhausts maxAttempts on an always-failing retryable error -/

/-- The retry loop on a contract that fails every invocation with the
same retryable (and not client-HTTP) error performs exactly `remaining`
further invocations and rejects with that error. -/
theorem retryAux_alwaysFail {α : Type} (wrapped : Nat → Except ThrownError α)
    (opts : RetryOptions) (e : NetworkError)
    (hret : e.type ∈ opts.retryableErrors) (hhttp : isClientHttpError e = false)
    (hw : ∀ n, wrapped n = .error (.network e)) :
    ∀ remaining, 1 ≤ remaining → ∀ lastError waitTime waits calls attempt,
      attempt + remaining = opts.maxAttempts →
      (retryAux wrapped opts lastError waitTime waits calls attempt remaining).result =
        .error (.network e) ∧
      (retryAux wrapped opts lastError waitTime waits calls attempt remaining).calls =
        calls + remaining := by
  intro remaining
  induction remaining with
  | zero => intro h; exact absurd h (by omega)
  | succ r ih =>
    intro _ lastError waitTime waits calls attempt hsum
    have step : retryAux wrapped opts lastError waitTime waits calls attempt (r + 1) =
        (if opts.maxAttempts ≤ attempt + 1 then
          ⟨.error (.network e), calls + 1, waits⟩
         else retryAux wrapped opts (some e)
             (min (waitTime * opts.backoffFactor) opts.maxDelay)
             (waits ++ [waitTime]) (calls + 1) (attempt + 1) r) := by
      simp only [retryAux, hw calls, hhttp]
      rw [if_neg (not_not_intro hret)]
      simp
    rw [step]
    by_cases hr : r = 0
    · subst hr
      rw [if_pos (by omega)]
      exact ⟨rfl, by simp⟩
    · rw [if_neg (by omega)]
      have h := ih (by omega) (some e) (min (waitTime * opts.backoffFactor) opts.maxDelay)
        (waits ++ [waitTime]) (calls + 1) (attempt + 1) (by omega)
      exact ⟨h.1, by rw [h.2]; omega⟩

/-- C1: under any policy with `maxAttempts ≥ 1`, a wrapped contract that
fails every invocation with a fixed typed error whose kind is retryable
(and, for HTTP_ERROR, whose status code is ≥ 500) is invoked exactly
`maxAttempts` times, and the call rejects with that error. -/
theorem retry_always_failing_invokes_maxAttempts {α : Type}
    (wrapped : Nat → Except ThrownError α) (opts : RetryOptions) (e : NetworkError)
    (hmax : 1 ≤ opts.maxAttempts)
    (hret : e.type ∈ opts.retryableErrors)
    (hstatus : e.type = NetworkErrorType.HTTP_ERROR → ∃ s, e.statusCode = some s ∧ 500 ≤ s)
    (hw : ∀ n, wrapped n = .error (.network e)) :
    (RetryDecorator.request wrapped opts).result = .error (.network e) ∧
    (RetryDecorator.request wrapped opts).calls = opts.maxAttempts := by
  have hhttp : isClientHttpError e = false := by
    by_cases ht : e.type = NetworkErrorType.HTTP_ERROR
    · obtain ⟨s, hs, h500⟩ := hstatus ht
      have hns : ¬ (s < 500) := by omega
      simp [isClientHttpError, ht, hs, hns]
    · simp [isClientHttpError, ht]
  have h := retryAux_alwaysFail wrapped opts e hret hhttp hw opts.maxAttempts hmax
    none opts.initialDelay [] 0 0 (by omega)
  simpa [RetryDecorator.request] using h

/-- Witness for C1: under the default policy a contract always failing
with NETWORK_FAILURE is invoked exactly 3 times and rejects with it. -/
theorem retry_always_failing_invokes_maxAttempts_inst :
    (RetryDecorator.request (α := Nat)
        (fun _ => .error (.network (NetworkError.networkFailure "down")))
        DEFAULT_RETRY_OPTIONS).calls = 3 ∧
    (RetryDecorator.request (α := Nat)
        (fun _ => .error (.network (NetworkError.networkFailure "down")))
        DEFAULT_RETRY_OPTIONS).result =
      .error (.network (NetworkError.networkFailure "down")) := by
  have h := retry_always_failing_invokes_maxAttempts (α := Nat)
    (fun _ => .error (.network (NetworkError.networkFailure "down")))
    DEFAULT_RETRY_OPTIONS (NetworkError.networkFailure "down")
    (by decide) (by decide)
    (fun ht => absurd ht (by decide)) (fun n => rfl)
  exact ⟨h.2, h.1⟩

/-! ## C2: ineligible errors propagate after one invocation -/

/-- C2 counterexample: the claim quantifies over HTTP_ERROR failures
with "numeric status code below 500", but with status code 0 the JS
truthiness guard (`error.statusCode && ...`) skips the client-error
check: under the default policies the retry decorator invokes the
wrapped contract 3 times (not once) and the fallback decorator does
invoke the secondary. -/
theorem retry_http_status_zero_cx :
    (RetryDecorator.request (α := Nat)
        (fun _ => .error (.network (NetworkError.httpError 0)))
        DEFAULT_RETRY_OPTIONS).calls = 3 ∧
    (RetryDecorator.request (α := Nat)
        (fun _ => .error (.network (NetworkError.httpError 0)))
        DEFAULT_RETRY_OPTIONS).calls ≠ 1 ∧
    (FallbackDecorator.request (γ := Unit) (α := Nat)
        (fun _ _ => .error (.network (NetworkError.httpError 0)))
        (fun _ _ => .ok 5) DEFAULT_FALLBACK_OPTIONS
        ⟨"/a", .GET, none, none, []⟩).secondaryCalls =
      [⟨"/a", .GET, none, none, []⟩] := by
  refine ⟨?_, ?_, ?_⟩ <;> decide

/-- C2 (amended): whenever the wrapped (resp. primary) call fails with
an error that is not a typed `NetworkError`, or a typed error whose kind
is outside the configured set, or an HTTP_ERROR whose status code is
present, nonzero and below 500, the retry decorator (under a policy with
`maxAttempts ≥ 1`) and the fallback decorator propagate the error
unchanged after exactly one invocation, the secondary never being
invoked. -/
theorem ineligible_error_propagates_once {γ α : Type} (opts : RetryOptions)
    (fopts : FallbackOptions) (err : ThrownError)
    (wrapped : Nat → Except ThrownError α)
    (primary secondary : Nat → RequestArgs γ → Except ThrownError α)
    (args : RequestArgs γ)
    (hmax : 1 ≤ opts.maxAttempts)
    (hw : wrapped 0 = .error err) (hp : primary 0 args = .error err)
    (hr : ∀ e, err = .network e → e.type ∉ opts.retryableErrors ∨
      (e.type = NetworkErrorType.HTTP_ERROR ∧ ∃ s, e.statusCode = some s ∧ s ≠ 0 ∧ s < 500))
    (hf : ∀ e, err = .network e → e.type ∉ fopts.fallbackErrors ∨
      (e.type = NetworkErrorType.HTTP_ERROR ∧ ∃ s, e.statusCode = some s ∧ s ≠ 0 ∧ s < 500)) :
    (RetryDecorator.request wrapped opts).result = .error err ∧
    (RetryDecorator.request wrapped opts).calls = 1 ∧
    (FallbackDecorator.request primary secondary fopts args).result = .error err ∧
    (FallbackDecorator.request primary secondary fopts args).primaryCalls = [args] ∧
    (FallbackDecorator.request primary secondary fopts args).secondaryCalls = [] := by
  obtain ⟨m, hm⟩ : ∃ m, opts.maxAttempts = m + 1 := ⟨opts.maxAttempts - 1, by omega⟩
  cases err with
  | foreign msg =>
    constructor
    · simp [RetryDecorator.request, hm, retryAux, hw]
    constructor
    · simp [RetryDecorator.request, hm, retryAux, hw]
    refine ⟨?_, ?_, ?_⟩ <;> simp [FallbackDecorator.request, hp]
  | network e =>
    have hclient : e.type ∉ opts.retryableErrors ∨ isClientHttpError e = true := by
      rcases hr e rfl with h | ⟨ht, s, hs, hs0, hs500⟩
      · exact Or.inl h
      · exact Or.inr (by simp [isClientHttpError, ht, hs, hs0, hs500])
    have hclientf : e.type ∉ fopts.fallbackErrors ∨ isClientHttpError e = true := by
      rcases hf e rfl with h | ⟨ht, s, hs, hs0, hs500⟩
      · exact Or.inl h
      · exact Or.inr (by simp [isClientHttpError, ht, hs, hs0, hs500])
    have hretry : (RetryDecorator.request wrapped opts).result = .error (.network e) ∧
        (RetryDecorator.request wrapped opts).calls = 1 := by
      rcases hclient with h | h
      · constructor <;> simp [RetryDecorator.request, hm, retryAux, hw, h]
      · by_cases hmem : e.type ∈ opts.retryableErrors
        · constructor <;> simp [RetryDecorator.request, hm, retryAux, hw, hmem, h]
        · constructor <;> simp [RetryDecorator.request, hm, retryAux, hw, hmem]
    have hfall : (FallbackDecorator.request primary secondary fopts args).result =
          .error (.network e) ∧
        (FallbackDecorator.request primary secondary fopts args).primaryCalls = [args] ∧
        (FallbackDecorator.request primary secondary fopts args).secondaryCalls = [] := by
      rcases hclientf with h | h
      · refine ⟨?_, ?_, ?_⟩ <;> simp [FallbackDecorator.request, hp, h]
      · by_cases hmem : e.type ∈ fopts.fallbackErrors
        · refine ⟨?_, ?_, ?_⟩ <;> simp [FallbackDecorator.request, hp, hmem, h]
        · refine ⟨?_, ?_, ?_⟩ <;> simp [FallbackDecorator.request, hp, hmem]
    exact ⟨hretry.1, hretry.2, hfall.1, hfall.2.1, hfall.2.2⟩

/-- Witness for C2: HTTP_ERROR(404) under the default policies is
propagated after exactly one invocation; the secondary is untouched. -/
theorem ineligible_error_propagates_once_inst :
    (RetryDecorator.request (α := Nat)
        (fun _ => .error (.network (NetworkError.httpError 404)))
        DEFAULT_RETRY_OPTIONS).calls = 1 ∧
    (FallbackDecorator.request (γ := Unit) (α := Nat)
        (fun _ _ => .error (.network (NetworkError.httpError 404)))
        (fun _ _ => .ok 5) DEFAULT_FALLBACK_OPTIONS
        ⟨"/a", .GET, none, none, []⟩).secondaryCalls = [] := by
  have h := ineligible_error_propagates_once (γ := Unit) (α := Nat)
    DEFAULT_RETRY_OPTIONS DEFAULT_FALLBACK_OPTIONS
    (.network (NetworkError.httpError 404))
    (fun _ => .error (.network (NetworkError.httpError 404)))
    (fun _ _ => .error (.network (NetworkError.httpError 404)))
    (fun _ _ => .ok 5) ⟨"/a", .GET, none, none, []⟩
    (by decide) rfl rfl
    (fun e he => by
      injection he with h1
      subst h1
      exact Or.inr ⟨by decide, 404, rfl, by decide, by decide⟩)
    (fun e he => by
      injection he with h1
      subst h1
      exact Or.inr ⟨by decide, 404, rfl, by decide, by decide⟩)
  exact ⟨h.2.1, h.2.2.2.2⟩

/-! ## C8: capped exponential backoff -/

/-- The iteratively updated delay `min(current * f, M)` coincides with
the capped closed form `min(d0 * f^k, M)` under the policy
preconditions. -/
theorem waitSeq_closed (d0 f M : ℚ) (hd0 : 0 ≤ d0) (hf : 1 ≤ f) (hM : d0 ≤ M) :
    ∀ k, waitSeq d0 f M k = min (d0 * f ^ k) M := by
  intro k
  induction k with
  | zero => simp [waitSeq, min_eq_left hM]
  | succ k ih =>
    have hf0 : (0 : ℚ) ≤ f := le_trans zero_le_one hf
    have hM0 : (0 : ℚ) ≤ M := le_trans hd0 hM
    rw [waitSeq, ih]
    rcases le_or_lt (d0 * f ^ k) M with h | h
    · rw [min_eq_left h, pow_succ, ← mul_assoc]
    · rw [min_eq_right h.le]
      have h1 : M ≤ M * f := le_mul_of_one_le_right hM0 hf
      have h2 : M ≤ d0 * f ^ (k + 1) := by
        have hx : (0 : ℚ) ≤ d0 * f ^ k := mul_nonneg hd0 (pow_nonneg hf0 k)
        calc M ≤ d0 * f ^ k := h.le
          _ ≤ d0 * f ^ k * f := le_mul_of_one_le_right hx hf
          _ = d0 * f ^ (k + 1) := by rw [pow_succ, mul_assoc]
      rw [min_eq_right h1, min_eq_right h2]

/-- The waits accumulated by the retry loop are always an initial
segment of the `waitSeq` sequence. -/
theorem retryAux_waits_shape {α : Type} (wrapped : Nat → Except ThrownError α)
    (opts : RetryOptions) :
    ∀ remaining lastError calls attempt p,
      ∃ q, (retryAux wrapped opts lastError
          (waitSeq opts.initialDelay opts.backoffFactor opts.maxDelay p)
          ((List.range p).map (waitSeq opts.initialDelay opts.backoffFactor opts.maxDelay))
          calls attempt remaining).waits =
        (List.range q).map (waitSeq opts.initialDelay opts.backoffFactor opts.maxDelay) := by
  intro remaining
  induction remaining with
  | zero => intro lastError calls attempt p; exact ⟨p, rfl⟩
  | succ r ih =>
    intro lastError calls attempt p
    cases hw : wrapped calls with
    | ok v => exact ⟨p, by simp [retryAux, hw]⟩
    | error err =>
      cases err with
      | foreign m => exact ⟨p, by simp [retryAux, hw]⟩
      | network e =>
        by_cases h1 : e.type ∈ opts.retryableErrors
        · by_cases h2 : isClientHttpError e = true
          · exact ⟨p, by simp [retryAux, hw, h1, h2]⟩
          · by_cases h3 : opts.maxAttempts ≤ attempt + 1
            · exact ⟨p, by simp [retryAux, hw, h1, h2, h3]⟩
            · have hacc : (List.range p).map
                    (waitSeq opts.initialDelay opts.backoffFactor opts.maxDelay) ++
                    [waitSeq opts.initialDelay opts.backoffFactor opts.maxDelay p] =
                  (List.range (p + 1)).map
                    (waitSeq opts.initialDelay opts.backoffFactor opts.maxDelay) := by
                rw [List.range_succ]
                simp
              obtain ⟨q, hq⟩ := ih (some e) (calls + 1) (attempt + 1) (p + 1)
              refine ⟨q, ?_⟩
              simp only [retryAux, hw, h1, h2, h3, not_false_eq_true, not_true_eq_false,
                if_false, if_true, ite_false, ite_true]
              rw [hacc]
              exact hq
        · exact ⟨p, by simp [retryAux, hw, h1]⟩

/-- C8: under `maxAttempts ≥ 1`, `initialDelay ≥ 0`, `backoffFactor ≥ 1`
and `maxDelay ≥ initialDelay`, every wait performed by the retry loop
equals the capped exponential `min(initialDelay * backoffFactor^k,
maxDelay)` (the wait at index `k`, counting from 0, precedes the
`(k+1)`-th re-invocation), and in particular is bounded by `maxDelay`. -/
theorem retry_backoff_closed_form {α : Type} (wrapped : Nat → Except ThrownError α)
    (opts : RetryOptions)
    (hmax : 1 ≤ opts.maxAttempts) (hd0 : 0 ≤ opts.initialDelay)
    (hf : 1 ≤ opts.backoffFactor) (hM : opts.initialDelay ≤ opts.maxDelay) :
    ∀ k, k < (RetryDecorator.request wrapped opts).waits.length →
      (RetryDecorator.request wrapped opts).waits.getD k 0 =
        min (opts.initialDelay * opts.backoffFactor ^ k) opts.maxDelay ∧
      (RetryDecorator.request wrapped opts).waits.getD k 0 ≤ opts.maxDelay := by
  intro k hk
  obtain ⟨q, hq⟩ := retryAux_waits_shape wrapped opts opts.maxAttempts none 0 0 0
  have hreq : (RetryDecorator.request wrapped opts).waits =
      (List.range q).map (waitSeq opts.initialDelay opts.backoffFactor opts.maxDelay) := hq
  rw [hreq] at hk ⊢
  rw [List.length_map, List.length_range] at hk
  rw [List.getD_eq_getElem?_getD, List.getElem?_map, List.getElem?_range hk]
  simp only [Option.map_some', Option.getD_some]
  rw [waitSeq_closed opts.initialDelay opts.backoffFactor opts.maxDelay hd0 hf hM]
  exact ⟨rfl, min_le_right _ _⟩

/-- Witness for C8: under the default policy the wait before the second
re-invocation is `min(300 * 2, 3000) = 600 ≤ 3000`. -/
theorem retry_backoff_closed_form_inst :
    (RetryDecorator.request (α := Nat)
        (fun _ => .error (.network (NetworkError.networkFailure "down")))
        DEFAULT_RETRY_OPTIONS).waits.getD 1 0 = 600 ∧
    (RetryDecorator.request (α := Nat)
        (fun _ => .error (.network (NetworkError.networkFailure "down")))
        DEFAULT_RETRY_OPTIONS).waits.getD 1 0 ≤ 3000 := by
  have h := retry_backoff_closed_form (α := Nat)
    (fun _ => .error (.network (NetworkError.networkFailure "down")))
    DEFAULT_RETRY_OPTIONS (by decide) (by decide) (by decide) (by decide)
    1 (by decide)
  refine ⟨h.1.trans ?_, h.2⟩
  norm_num [DEFAULT_RETRY_OPTIONS, min_def]

/-! ## C5: the fallback decorator -/

/-- C5: the fallback decorator invokes the primary exactly once per
call; on primary success the result is returned and the secondary is
never invoked; on a fallback-eligible typed failure the secondary is
invoked exactly once with the identical arguments and its outcome
(result or error) is returned verbatim. -/
theorem fallbackDecorator_request_spec {γ α : Type}
    (primary secondary : Nat → RequestArgs γ → Except ThrownError α)
    (opts : FallbackOptions) (args : RequestArgs γ) :
    (FallbackDecorator.request primary secondary opts args).primaryCalls = [args] ∧
    (∀ v, primary 0 args = .ok v →
      (FallbackDecorator.request primary secondary opts args).result = .ok v ∧
      (FallbackDecorator.request primary secondary opts args).secondaryCalls = []) ∧
    (∀ e, primary 0 args = .error (.network e) → e.type ∈ opts.fallbackErrors →
      isClientHttpError e = false →
      (FallbackDecorator.request primary secondary opts args).secondaryCalls = [args] ∧
      (FallbackDecorator.request primary secondary opts args).result = secondary 0 args) := by
  refine ⟨?_, ?_, ?_⟩
  · cases hp : primary 0 args with
    | ok v => simp [FallbackDecorator.request, hp]
    | error err =>
      cases err with
      | foreign m => simp [FallbackDecorator.request, hp]
      | network e =>
        by_cases h1 : e.type ∈ opts.fallbackErrors
        · by_cases h2 : isClientHttpError e = true
          · simp [FallbackDecorator.request, hp, h1, h2]
          · simp [FallbackDecorator.request, hp, h1, h2]
        · simp [FallbackDecorator.request, hp, h1]
  · intro v hp
    constructor <;> simp [FallbackDecorator.request, hp]
  · intro e hp hmem hcl
    constructor <;> simp [FallbackDecorator.request, hp, hmem, hcl]

/-- Witness for C5: primary fails with NETWORK_FAILURE, secondary
succeeds — primary invoked once, secondary invoked once with the same
arguments, result is the secondary's. -/
theorem fallbackDecorator_request_spec_inst :
    (FallbackDecorator.request (γ := Unit) (α := Nat)
        (fun _ _ => .error (.network (NetworkError.networkFailure "down")))
        (fun _ _ => .ok 9) DEFAULT_FALLBACK_OPTIONS
        ⟨"/a", .GET, none, none, []⟩).primaryCalls = [⟨"/a", .GET, none, none, []⟩] ∧
    (FallbackDecorator.request (γ := Unit) (α := Nat)
        (fun _ _ => .error (.network (NetworkError.networkFailure "down")))
        (fun _ _ => .ok 9) DEFAULT_FALLBACK_OPTIONS
        ⟨"/a", .GET, none, none, []⟩).secondaryCalls = [⟨"/a", .GET, none, none, []⟩] ∧
    (FallbackDecorator.request (γ := Unit) (α := Nat)
        (fun _ _ => .error (.network (NetworkError.networkFailure "down")))
        (fun _ _ => .ok 9) DEFAULT_FALLBACK_OPTIONS
        ⟨"/a", .GET, none, none, []⟩).result = .ok 9 := by
  have h := fallbackDecorator_request_spec (γ := Unit) (α := Nat)
    (fun _ _ => .error (.network (NetworkError.networkFailure "down")))
    (fun _ _ => .ok 9) DEFAULT_FALLBACK_OPTIONS ⟨"/a", .GET, none, none, []⟩
  have h3 := h.2.2 (NetworkError.networkFailure "down") rfl (by decide) (by decide)
  exact ⟨h.1, h3.1, h3.2⟩

/-! ## C4: the authentication decorator -/

/-- C4: without required auth the provider is never invoked and headers
pass through unchanged; with required auth an absent or empty token
fails immediately with the UNAUTHORIZED typed error and the wrapped
contract is not invoked; otherwise the configured header is set to the
token verbatim when it already starts with "Bearer " and to "Bearer "
prepended to it otherwise, overriding any caller-supplied header of that
name and preserving all others. -/
theorem authenticatedDecorator_request_spec {γ α : Type}
    (wrapped : RequestArgs γ → Except ThrownError α)
    (tokenProvider : Option String) (needsAuth : String → Bool)
    (headerName : String) (args : RequestArgs γ) :
    (needsAuth args.endpoint = false →
      (AuthenticatedDecorator.request wrapped tokenProvider needsAuth headerName
        args).providerInvoked = false ∧
      (AuthenticatedDecorator.request wrapped tokenProvider needsAuth headerName
        args).wrappedArgs = some args ∧
      (AuthenticatedDecorator.request wrapped tokenProvider needsAuth headerName
        args).result = wrapped args)
    ∧ (needsAuth args.endpoint = true → (tokenProvider = none ∨ tokenProvider = some "") →
      (AuthenticatedDecorator.request wrapped tokenProvider needsAuth headerName
        args).result = .error (.network NetworkError.unauthorized) ∧
      (AuthenticatedDecorator.request wrapped tokenProvider needsAuth headerName
        args).wrappedArgs = none)
    ∧ (∀ t, needsAuth args.endpoint = true → tokenProvider = some t → t ≠ "" →
      (AuthenticatedDecorator.request wrapped tokenProvider needsAuth headerName
        args).wrappedArgs =
        some { args with headers := objSet args.headers headerName (bearerHeaderValue t) } ∧
      (AuthenticatedDecorator.request wrapped tokenProvider needsAuth headerName
        args).result =
        wrapped { args with headers := objSet args.headers headerName (bearerHeaderValue t) } ∧
      objGet (objSet args.headers headerName (bearerHeaderValue t)) headerName =
        some (bearerHeaderValue t) ∧
      (∀ k, k ≠ headerName →
        objGet (objSet args.headers headerName (bearerHeaderValue t)) k =
          objGet args.headers k) ∧
      (strStartsWith t "Bearer " = true → bearerHeaderValue t = t) ∧
      (strStartsWith t "Bearer " = false → bearerHeaderValue t = "Bearer " ++ t)) := by
  refine ⟨?_, ?_, ?_⟩
  · intro hn
    refine ⟨?_, ?_, ?_⟩ <;> simp [AuthenticatedDecorator.request, hn]
  · intro hn htok
    rcases htok with h | h <;> subst h <;>
      exact ⟨by simp [AuthenticatedDecorator.request, hn],
             by simp [AuthenticatedDecorator.request, hn]⟩
  · intro t hn htok hne
    subst htok
    refine ⟨?_, ?_, objGet_objSet_self _ _ _,
      fun k hk => objGet_objSet_other _ _ _ _ hk, ?_, ?_⟩
    · simp [AuthenticatedDecorator.request, hn, hne]
    · simp [AuthenticatedDecorator.request, hn, hne]
    · intro hs; simp [bearerHeaderValue, hs]
    · intro hs; simp [bearerHeaderValue, hs]

/-- Witness for C4: no-auth endpoint passes through; token "abc" yields
header `Bearer abc` overriding the old value and preserving other
headers; token "Bearer abc" is used verbatim; an empty token raises
UNAUTHORIZED. -/
theorem authenticatedDecorator_request_spec_inst :
    (AuthenticatedDecorator.request (γ := Unit) (α := Nat) (fun _ => .ok 1)
        (some "tok") (fun _ => false) "Authorization"
        ⟨"/open", .GET, none, none, [("X", "y")]⟩).providerInvoked = false ∧
    objGet (objSet [("Authorization", "old"), ("X", "y")] "Authorization"
        (bearerHeaderValue "abc")) "Authorization" = some "Bearer abc" ∧
    objGet (objSet [("Authorization", "old"), ("X", "y")] "Authorization"
        (bearerHeaderValue "abc")) "X" = some "y" ∧
    bearerHeaderValue "Bearer abc" = "Bearer abc" ∧
    (AuthenticatedDecorator.request (γ := Unit) (α := Nat) (fun _ => .ok 1)
        (some "") (fun _ => true) "Authorization"
        ⟨"/p", .GET, none, none, []⟩).result =
      .error (.network NetworkError.unauthorized) := by
  have h1 := (authenticatedDecorator_request_spec (γ := Unit) (α := Nat) (fun _ => .ok 1)
    (some "tok") (fun _ => false) "Authorization"
    ⟨"/open", .GET, none, none, [("X", "y")]⟩).1 rfl
  have h2 := (authenticatedDecorator_request_spec (γ := Unit) (α := Nat) (fun _ => .ok 1)
    (some "abc") (fun _ => true) "Authorization"
    ⟨"/a", .GET, none, none, [("Authorization", "old"), ("X", "y")]⟩).2.2 "abc" rfl rfl
    (by decide)
  have h3 := (authenticatedDecorator_request_spec (γ := Unit) (α := Nat) (fun _ => .ok 1)
    (some "Bearer abc") (fun _ => true) "Authorization"
    ⟨"/a", .GET, none, none, []⟩).2.2 "Bearer abc" rfl rfl (by decide)
  have h4 := (authenticatedDecorator_request_spec (γ := Unit) (α := Nat) (fun _ => .ok 1)
    (some "") (fun _ => true) "Authorization"
    ⟨"/p", .GET, none, none, []⟩).2.1 rfl (Or.inr rfl)
  refine ⟨h1.1, h2.2.2.1.trans (by decide), ?_, h3.2.2.2.2.1 (by decide), h4.1⟩
  exact (h2.2.2.2.1 "X" (by decide)).trans (by decide)
